import Mathlib

/-!
Verification development for the homeplayer audio core
(`rodio-player/src/lib.rs` and `rodio-player/src/cd_audio.rs`).

The Rust code is shallowly embedded: pure computations become Lean
functions, the stateful playback engine becomes explicit state passing
on an `EngineState` record, machine integers are `Nat`/`Int` with
explicit `% 2^64` where a Rust cast wraps, and fallible operations
return `Option`.  External effects (the decoder opening a file, the
kernel ioctls reading the disc) are oracles passed in as functions.
Floating point volume and sample values are modelled by exact rationals:
the engine only stores, compares against zero, and divides these values
once, so the rational model tracks the `f32`/`f64` code faithfully
except where noted.
-/

/-- `PlayerState` from `lib.rs`: the player state events sent over the
button-state channel. -/
inductive PlayerState where
  | Playing
  | Paused
  | Stopped
  | Muted
  | Unmuted
  | Seekable
  | Unseekable
  | StartPlaying
deriving DecidableEq, Repr

/-- `SoundItem` from `lib.rs`: one entry of the play queue. -/
structure SoundItem where
  artist : String
  album : String
  title : String
  path : String
  cover : String
deriving DecidableEq, Repr

/-- `TitleChanged` from `lib.rs`: the now-playing event. -/
structure TitleChanged where
  artist : String
  album : String
  title : String
  cover : String
deriving DecidableEq, Repr

/-- The `TitleChanged` value `start_playback_queue` sends for a queue item. -/
def mkTitleChanged (it : SoundItem) : TitleChanged :=
  { artist := it.artist, album := it.album, title := it.title, cover := it.cover }

/-- `usize::MAX` on a 64-bit target: the sentinel `stop` writes into the
queue cursor. -/
def USIZE_MAX : Nat := 2 ^ 64 - 1

/-- The mutable state of `RodioPlayer` relevant to the embedded operations:
the sink volume and paused flag, the sound queue with its cursor
(`sound_queue_index`), and the remembered pre-mute volume. -/
structure EngineState where
  sinkVolume : Rat
  sinkPaused : Bool
  sound_queue : List SoundItem
  sound_queue_index : Nat
  mute_volume : Rat
deriving DecidableEq, Repr

/-- Result of one run of the `start_playback_queue` session thread:
the button-state events it sent, the title events it sent, how many
sources it appended to the sink, the final cursor value, the paused
flag of the sink when it exited, and whether it returned `Ok`
(`ok = false` models an early `?` return on a file-open error). -/
structure SessionResult where
  buttonEvents : List PlayerState
  titleEvents : List TitleChanged
  appended : Nat
  finalIndex : Nat
  sinkPaused : Bool
  ok : Bool
deriving DecidableEq, Repr

/-- Intermediate result of the session loop (everything but the leading
and trailing button events). -/
structure LoopResult where
  titles : List TitleChanged
  appended : Nat
  finalIndex : Nat
  sinkPaused : Bool
  ok : Bool
deriving DecidableEq, Repr

/-- The loop of `start_playback_queue`, walking the part of the queue
from the cursor onward (the list argument is `queue.drop idx`).  Per
iteration the code increments the cursor, sends a title event, opens and
decodes the file (`decode idx` is the oracle for whether that succeeds;
on failure the `?` operator returns early), appends the source to the
sink and starts it (which clears the sink's paused flag), then blocks
until the sink drains. -/
def playback_go (decode : Nat → Bool) (idx : Nat) (paused : Bool) :
    List SoundItem → LoopResult
  | [] => { titles := [], appended := 0, finalIndex := idx,
            sinkPaused := paused, ok := true }
  | item :: rest =>
    if decode idx then
      let r := playback_go decode (idx + 1) false rest
      { r with titles := mkTitleChanged item :: r.titles,
               appended := r.appended + 1 }
    else
      { titles := [mkTitleChanged item], appended := 0, finalIndex := idx + 1,
        sinkPaused := paused, ok := false }

/-- `start_playback_queue` from `lib.rs`: emits Playing/Seekable/StartPlaying,
runs the queue loop, and on normal exhaustion emits Stopped/Unseekable
(skipped when the loop returned early through `?`). -/
def start_playback_queue (queue : List SoundItem) (decode : Nat → Bool)
    (idx : Nat) (paused : Bool) : SessionResult :=
  let r := playback_go decode idx paused (queue.drop idx)
  { buttonEvents :=
      if r.ok then
        [PlayerState.Playing, PlayerState.Seekable, PlayerState.StartPlaying,
         PlayerState.Stopped, PlayerState.Unseekable]
      else
        [PlayerState.Playing, PlayerState.Seekable, PlayerState.StartPlaying],
    titleEvents := r.titles, appended := r.appended, finalIndex := r.finalIndex,
    sinkPaused := r.sinkPaused, ok := r.ok }

namespace RodioPlayer

/-- `RodioPlayer::play`: unconditionally spawns `start_playback_queue` on the
current queue and cursor.  The spawned session is run to completion here
(sequentialised); `play` itself inspects no sink state. -/
def play (s : EngineState) (decode : Nat → Bool) : EngineState × SessionResult :=
  let r := start_playback_queue s.sound_queue decode s.sound_queue_index s.sinkPaused
  ({ s with sound_queue_index := r.finalIndex, sinkPaused := r.sinkPaused }, r)

/-- `RodioPlayer::stop`: set the cursor to `usize::MAX`, stop the sink, and
send `Stopped`. -/
def stop (s : EngineState) : EngineState × List PlayerState :=
  ({ s with sound_queue_index := USIZE_MAX }, [PlayerState.Stopped])

/-- `RodioPlayer::pause`: toggle the sink's paused flag, sending `Playing`
when resuming and `Paused` when pausing. -/
def pause (s : EngineState) : EngineState × List PlayerState :=
  if s.sinkPaused then
    ({ s with sinkPaused := false }, [PlayerState.Playing])
  else
    ({ s with sinkPaused := true }, [PlayerState.Paused])

/-- `RodioPlayer::mute`: if the sink volume is non-zero, remember it and set
the volume to zero (send `Muted`); otherwise restore the remembered volume
and zero the memory (send `Unmuted`). -/
def mute (s : EngineState) : EngineState × List PlayerState :=
  if s.sinkVolume ≠ 0 then
    ({ s with mute_volume := s.sinkVolume, sinkVolume := 0 }, [PlayerState.Muted])
  else
    ({ s with sinkVolume := s.mute_volume, mute_volume := 0 }, [PlayerState.Unmuted])

/-- `RodioPlayer::clear`: empty the queue, reset the cursor to zero, and
clear the sink. -/
def clear (s : EngineState) : EngineState :=
  { s with sound_queue := [], sound_queue_index := 0 }

/-- `RodioPlayer::skip_previous`: `idx.saturating_sub(2)` on the cursor,
then stop the sink. -/
def skip_previous (s : EngineState) : EngineState :=
  { s with sound_queue_index := s.sound_queue_index - 2 }

/-- `RodioPlayer::switch_device`: read the current volume, `stop` then
`clear`, build a fresh sink for the new device and apply the saved volume
to it, then swap it in. -/
def switch_device (s : EngineState) : EngineState × List PlayerState :=
  let volume := s.sinkVolume
  let r1 := stop s
  let s2 := clear r1.1
  ({ s2 with sinkVolume := volume, sinkPaused := false }, r1.2)

end RodioPlayer

/-! ## CD audio (`cd_audio.rs`) -/

/-- `SECTOR_SIZE` from `cd_audio.rs`: bytes in one raw audio sector. -/
def SECTOR_SIZE : Nat := 2352

/-- `SAMPLES_PER_SECTOR` from `cd_audio.rs`: 16-bit samples per sector. -/
def SAMPLES_PER_SECTOR : Nat := SECTOR_SIZE / 2

/-- `SECTORS_PER_READ` from `cd_audio.rs`: sectors per `CDROMREADAUDIO` call. -/
def SECTORS_PER_READ : Int := 25

/-- `CD_FRAMES_PER_SECOND` from `cd_audio.rs` (Red Book). -/
def CD_FRAMES_PER_SECOND : Int := 75

/-- Oracle for the disc behind the `CDROMREADAUDIO` ioctl:
`sampleAt k` is the decoded little-endian `i16` sample at absolute sample
index `k` (sample indices count from LBA 0, `SAMPLES_PER_SECTOR` per
sector), and `readOk lba n` says whether reading `n` sectors starting at
`lba` succeeds. -/
structure Disc where
  sampleAt : Int → Int
  readOk : Int → Int → Bool

/-- The samples a successful `CDROMREADAUDIO` of `nframes` sectors at
`lba` decodes (the `chunks_exact(2)` / `i16::from_le_bytes` loop of
`fill_buffer`). -/
def readSamples (d : Disc) (lba : Int) (nframes : Int) : List Int :=
  (List.range (nframes.toNat * SAMPLES_PER_SECTOR)).map
    (fun k : Nat => d.sampleAt (lba * (SAMPLES_PER_SECTOR : Int) + (k : Int)))

/-- `CdTrackSource` from `cd_audio.rs` (the fields the iterator uses). -/
structure CdTrackSource where
  current_lba : Int
  end_lba : Int
  buffer : List Int
  buffer_pos : Nat
  total_samples : Nat
  samples_yielded : Nat
deriving DecidableEq, Repr

namespace CdTrackSource

/-- `CdTrackSource::new`: `sector_count = (end_lba - start_lba) as usize`
(an `i32` → `usize` cast, which sign-extends and wraps modulo `2^64`),
`total_samples = sector_count * SAMPLES_PER_SECTOR`, empty sample buffer. -/
def new (start_lba end_lba : Int) : CdTrackSource :=
  let sector_count : Nat := ((end_lba - start_lba) % (2 ^ 64 : Int)).toNat
  { current_lba := start_lba
    end_lba := end_lba
    buffer := []
    buffer_pos := 0
    total_samples := sector_count * SAMPLES_PER_SECTOR
    samples_yielded := 0 }

/-- `CdTrackSource::fill_buffer`: read the next batch of at most 25
sectors.  On ioctl success the buffer holds the decoded samples; on
failure the cursor still advances past the attempted sectors and the
buffer is filled with the same number of zero samples. -/
def fill_buffer (d : Disc) (s : CdTrackSource) : CdTrackSource × Bool :=
  if s.current_lba ≥ s.end_lba then (s, false)
  else
    let remaining_sectors := s.end_lba - s.current_lba
    let sectors_to_read := min remaining_sectors SECTORS_PER_READ
    if d.readOk s.current_lba sectors_to_read then
      ({ s with current_lba := s.current_lba + sectors_to_read,
                buffer := readSamples d s.current_lba sectors_to_read,
                buffer_pos := 0 }, true)
    else
      ({ s with current_lba := s.current_lba + sectors_to_read,
                buffer := List.replicate (sectors_to_read.toNat * SAMPLES_PER_SECTOR) 0,
                buffer_pos := 0 }, true)

/-- The tail of `<CdTrackSource as Iterator>::next` once a sample is
available: index the buffer (`buffer[buffer_pos]`, in bounds whenever the
code reaches it), bump the counters, and convert
`sample as f32 / i16::MAX as f32` — modelled as exact division by 32767. -/
def yield_one (s : CdTrackSource) : Option Rat × CdTrackSource :=
  let sample := s.buffer.getD s.buffer_pos 0
  (some ((sample : Rat) / 32767),
   { s with buffer_pos := s.buffer_pos + 1,
            samples_yielded := s.samples_yielded + 1 })

/-- `<CdTrackSource as Iterator>::next`. -/
def next (d : Disc) (s : CdTrackSource) : Option Rat × CdTrackSource :=
  if s.samples_yielded ≥ s.total_samples then (none, s)
  else if s.buffer_pos ≥ s.buffer.length then
    match fill_buffer d s with
    | (s1, false) => (none, s1)
    | (s1, true) => yield_one s1
  else
    yield_one s

/-- State of the source after `k` calls to `next`. -/
def stepN (d : Disc) (s : CdTrackSource) : Nat → CdTrackSource
  | 0 => s
  | k + 1 => (next d (stepN d s k)).2

/-- Output of the `(k+1)`-th call to `next`. -/
def outN (d : Disc) (s : CdTrackSource) (k : Nat) : Option Rat :=
  (next d (stepN d s k)).1

end CdTrackSource

/-! ## TOC reading (`read_cd_toc`) -/

/-- `CdTrackInfo` from `cd_audio.rs`.  `durationSecs` models the
`Duration` built by `Duration::from_secs_f64(sector_count as f64 / 75.0)`
as the exact rational number of seconds. -/
structure CdTrackInfo where
  number : Nat
  start_lba : Int
  end_lba : Int
  durationSecs : Rat
  is_audio : Bool
deriving DecidableEq, Repr

/-- `CdTrackInfo::sector_count`. -/
def CdTrackInfo.sector_count (t : CdTrackInfo) : Int :=
  t.end_lba - t.start_lba

/-- `CdInfo` from `cd_audio.rs`. -/
structure CdInfo where
  first_track : Nat
  last_track : Nat
  tracks : List CdTrackInfo
deriving DecidableEq, Repr

/-- The intermediate `RawEntry` record of `read_cd_toc`. -/
structure RawEntry where
  number : Nat
  start_lba : Int
  is_audio : Bool
deriving DecidableEq, Repr

/-- Oracle for the TOC ioctls on one disc: header fields
(`cdth_trk0` / `cdth_trk1`), per-track start address and packed
adr/ctrl byte, and the lead-out address.  Only the successful-ioctl
path is modelled; an ioctl failure makes `read_cd_toc` return `Err`
before any track is built. -/
structure TocOracle where
  first_track : Nat
  last_track : Nat
  entryLba : Nat → Int
  entryAdrCtrl : Nat → Nat
  leadoutLba : Int

/-- The `RawEntry` one loop iteration of `read_cd_toc` builds for track
number `t`: it extracts the control nibble
(`(cdte_adr_ctrl >> 4) & 0x0F`) and classifies audio as
`ctrl & 0x04 == 0`. -/
def mkRawEntry (o : TocOracle) (t : Nat) : RawEntry :=
  { number := t
    start_lba := o.entryLba t
    is_audio := ((o.entryAdrCtrl t >>> 4) &&& 0x0F) &&& 0x04 == 0 }

/-- Step 2 of `read_cd_toc`: one `RawEntry` per track number in
`first_track..=last_track`. -/
def toc_entries (o : TocOracle) : List RawEntry :=
  (List.range' o.first_track (o.last_track + 1 - o.first_track)).map
    (mkRawEntry o)

/-- Step 3 of `read_cd_toc`: build a `CdTrackInfo` per raw entry; the end
address is the next entry's start, or the lead-out for the last entry.
`Duration::from_secs_f64` panics when `sector_count as f64 / 75.0` is
negative; the panic is modelled as `none`. -/
def build_tracks (leadout : Int) : List RawEntry → Option (List CdTrackInfo)
  | [] => some []
  | e :: rest =>
    let end_lba := match rest with
      | [] => leadout
      | e2 :: _ => e2.start_lba
    let sector_count := end_lba - e.start_lba
    if sector_count < 0 then none
    else
      match build_tracks leadout rest with
      | none => none
      | some ts =>
        some ({ number := e.number, start_lba := e.start_lba, end_lba := end_lba,
                durationSecs := (sector_count : Rat) / 75,
                is_audio := e.is_audio } :: ts)

/-- `read_cd_toc` from `cd_audio.rs` (the pure part, over the ioctl
oracle): header, per-track entries, lead-out, then track construction.
`none` models the `Duration::from_secs_f64` panic on a negative span. -/
def read_cd_toc (o : TocOracle) : Option CdInfo :=
  match build_tracks o.leadoutLba (toc_entries o) with
  | none => none
  | some ts =>
    some { first_track := o.first_track, last_track := o.last_track, tracks := ts }

/-! ## Playback-engine theorems -/

/-- Helper: the session loop when every file opens and decodes
successfully: one title event per remaining item, one appended source per
item, the cursor ends past the last item, and the sink is unpaused by the
first sink start (or left alone when there was nothing to play). -/
theorem playback_go_all_ok (decode : Nat → Bool) (hd : ∀ i, decode i = true)
    (l : List SoundItem) : ∀ (idx : Nat) (paused : Bool),
    playback_go decode idx paused l =
      { titles := l.map mkTitleChanged, appended := l.length,
        finalIndex := idx + l.length,
        sinkPaused := if l.length = 0 then paused else false, ok := true } := by
  induction l with
  | nil => intro idx paused; simp [playback_go]
  | cons a t ih =>
    intro idx paused
    simp only [playback_go, hd idx, if_true, ih (idx + 1) false]
    simp [ite_self]
    omega

/-- An engine state that is paused with an exhausted queue, used to show
what `play` does there. -/
def pausedEngineExample : EngineState :=
  { sinkVolume := 1, sinkPaused := true, sound_queue := [],
    sound_queue_index := 0, mute_volume := 0 }

/-- Claim C1 counterexample: in a paused engine state `play()` does not
toggle the paused flag off — the sink stays paused — and it does spawn a
session thread (the session emits its `StartPlaying` event).  This
contradicts the claim that a paused `play()` resumes instead of spawning. -/
theorem play_paused_still_spawns_session :
    (RodioPlayer.play pausedEngineExample (fun _ => true)).1.sinkPaused = true ∧
    PlayerState.StartPlaying
      ∈ (RodioPlayer.play pausedEngineExample (fun _ => true)).2.buttonEvents := by
  decide

/-- Claim C1 (amended): `play()` always spawns a session thread that walks
the file queue from the current cursor, regardless of the paused flag;
`play()` itself performs no pause toggle — the paused flag is cleared only
by the session's sink-start call when at least one queue item is actually
played. -/
theorem play_always_spawns_session (s : EngineState) (decode : Nat → Bool)
    (hd : ∀ i, decode i = true) :
    PlayerState.StartPlaying ∈ (RodioPlayer.play s decode).2.buttonEvents ∧
    (RodioPlayer.play s decode).2.titleEvents
      = (s.sound_queue.drop s.sound_queue_index).map mkTitleChanged ∧
    (RodioPlayer.play s decode).2.appended
      = s.sound_queue.length - s.sound_queue_index ∧
    (RodioPlayer.play s decode).1.sinkPaused
      = (if s.sound_queue_index < s.sound_queue.length then false
         else s.sinkPaused) := by
  simp [RodioPlayer.play, start_playback_queue,
    playback_go_all_ok decode hd (s.sound_queue.drop s.sound_queue_index)
      s.sound_queue_index s.sinkPaused, List.length_drop]
  by_cases h : s.sound_queue_index < s.sound_queue.length
  · have h0 : ¬(s.sound_queue.length - s.sound_queue_index = 0) := by omega
    simp [h, h0]
  · have h0 : s.sound_queue.length - s.sound_queue_index = 0 := by omega
    simp [h, h0]

/-- Witness for the amended claim C1 at a concrete paused state with a
one-item queue. -/
theorem play_always_spawns_session_witness :
    PlayerState.StartPlaying
      ∈ (RodioPlayer.play
          { sinkVolume := 1, sinkPaused := true,
            sound_queue := [{ artist := "a", album := "b", title := "t",
                              path := "p", cover := "c" }],
            sound_queue_index := 0, mute_volume := 0 } (fun _ => true)).2.buttonEvents :=
  (play_always_spawns_session _ (fun _ => true) (fun _ => rfl)).1

/-- Claim C6: from any state with non-zero sink volume `v`, `mute()`
stores `v`, zeroes the volume and emits `Muted`; a second `mute()`
restores exactly `v`, zeroes the memory and emits `Unmuted`. -/
theorem mute_mute_roundtrip (s : EngineState) (hv : s.sinkVolume ≠ 0) :
    (RodioPlayer.mute s).1.sinkVolume = 0 ∧
    (RodioPlayer.mute s).1.mute_volume = s.sinkVolume ∧
    (RodioPlayer.mute s).2 = [PlayerState.Muted] ∧
    (RodioPlayer.mute (RodioPlayer.mute s).1).1.sinkVolume = s.sinkVolume ∧
    (RodioPlayer.mute (RodioPlayer.mute s).1).1.mute_volume = 0 ∧
    (RodioPlayer.mute (RodioPlayer.mute s).1).2 = [PlayerState.Unmuted] := by
  simp [RodioPlayer.mute, hv]

/-- Witness for claim C6 at volume 1/2. -/
theorem mute_mute_roundtrip_witness :
    (RodioPlayer.mute (RodioPlayer.mute
      { sinkVolume := 1/2, sinkPaused := false, sound_queue := [],
        sound_queue_index := 0, mute_volume := 7 }).1).1.sinkVolume = 1/2 :=
  (mute_mute_roundtrip _ (by norm_num)).2.2.2.1

/-- Claim C7: `skip_previous()` sets the cursor to `max (c - 2) 0` — the
saturating subtraction clamps at zero, so cursor positions 0 and 1 both
map to 0 with no unsigned underflow. -/
theorem skip_previous_clamped (s : EngineState) :
    ((RodioPlayer.skip_previous s).sound_queue_index : Int)
      = max ((s.sound_queue_index : Int) - 2) 0 := by
  simp only [RodioPlayer.skip_previous]
  omega

/-- Claim C8: `switch_device` applies the volume read from the old sink to
the newly installed sink, so the sink volume after the switch equals the
volume before it. -/
theorem switch_device_preserves_volume (s : EngineState) :
    (RodioPlayer.switch_device s).1.sinkVolume = s.sinkVolume := rfl

/-- Claim C9: after `stop()` (and no `clear()`), the cursor is the
`usize::MAX` sentinel, so a subsequent `play()` runs a session whose loop
condition fails immediately: it emits exactly Playing, Seekable,
StartPlaying, Stopped, Unseekable, sends no title event, and appends
nothing to the sink, whatever the queue holds. -/
theorem stop_then_play_runs_empty_session (s : EngineState) (decode : Nat → Bool)
    (hlen : s.sound_queue.length ≤ USIZE_MAX) :
    (RodioPlayer.play (RodioPlayer.stop s).1 decode).2.buttonEvents
      = [PlayerState.Playing, PlayerState.Seekable, PlayerState.StartPlaying,
         PlayerState.Stopped, PlayerState.Unseekable] ∧
    (RodioPlayer.play (RodioPlayer.stop s).1 decode).2.titleEvents = [] ∧
    (RodioPlayer.play (RodioPlayer.stop s).1 decode).2.appended = 0 := by
  have hdrop : s.sound_queue.drop USIZE_MAX = [] := List.drop_eq_nil_of_le hlen
  simp [RodioPlayer.play, RodioPlayer.stop, start_playback_queue, hdrop, playback_go]

/-! ## Track Source theorems -/

/-- Length of a successful batch read: `sectors × 1176` samples. -/
theorem readSamples_length (d : Disc) (lba n : Int) :
    (readSamples d lba n).length = n.toNat * SAMPLES_PER_SECTOR := by
  rw [readSamples, List.length_map, List.length_range]

/-- Claim C3: when the sector read fails, `fill_buffer` still advances the
cursor by exactly the attempted count `min(remaining, 25)`, fills the
buffer with exactly `attempted × 1176` zero samples, resets the read
position, and reports that samples are available, so the failed span is
emitted as silence and production continues past it. -/
theorem fill_buffer_failure_silence (d : Disc) (s : CdTrackSource)
    (hlt : s.current_lba < s.end_lba)
    (hfail : d.readOk s.current_lba
        (min (s.end_lba - s.current_lba) SECTORS_PER_READ) = false) :
    (CdTrackSource.fill_buffer d s).2 = true ∧
    (CdTrackSource.fill_buffer d s).1.current_lba
      = s.current_lba + min (s.end_lba - s.current_lba) SECTORS_PER_READ ∧
    (CdTrackSource.fill_buffer d s).1.buffer
      = List.replicate
          ((min (s.end_lba - s.current_lba) SECTORS_PER_READ).toNat * 1176) 0 ∧
    (CdTrackSource.fill_buffer d s).1.buffer_pos = 0 := by
  simp [CdTrackSource.fill_buffer, not_le.mpr hlt, hfail, SAMPLES_PER_SECTOR,
    SECTOR_SIZE]

/-- A scratched region for the C3 witness: every read fails, every
sample (never reached) is zero. -/
def scratchedDisc : Disc :=
  { sampleAt := fun _ => 0, readOk := fun _ _ => false }

/-- Witness for claim C3: a 30-sector track, cursor at its start; the
failed refill advances the cursor by 25 sectors. -/
theorem fill_buffer_failure_silence_witness :
    (CdTrackSource.fill_buffer scratchedDisc (CdTrackSource.new 0 30)).1.current_lba
      = 0 + min (30 - 0) SECTORS_PER_READ :=
  (fill_buffer_failure_silence scratchedDisc (CdTrackSource.new 0 30)
    (by decide) (by decide)).2.1

/-- Iterator invariant of `CdTrackSource`: the cursor never passes the
end sector, the read position never passes the buffer, and the samples
yielded so far, the samples still buffered, and the samples still on
disc always account exactly for the track's total. -/
def SourceInv (s : CdTrackSource) : Prop :=
  s.current_lba ≤ s.end_lba ∧
  s.buffer_pos ≤ s.buffer.length ∧
  s.samples_yielded + (s.buffer.length - s.buffer_pos)
      + (s.end_lba - s.current_lba).toNat * SAMPLES_PER_SECTOR
    = s.total_samples

/-- `yield_one` keeps the invariant, emits a sample, and bumps the
yield counter, whenever the read position is strictly inside the
buffer and the track is not yet exhausted. -/
theorem yield_one_step (s : CdTrackSource) (hInv : SourceInv s)
    (hpos : s.buffer_pos < s.buffer.length) :
    (CdTrackSource.yield_one s).1.isSome = true ∧
    SourceInv (CdTrackSource.yield_one s).2 ∧
    (CdTrackSource.yield_one s).2.samples_yielded = s.samples_yielded + 1 ∧
    (CdTrackSource.yield_one s).2.total_samples = s.total_samples := by
  obtain ⟨h1, h2, h3⟩ := hInv
  refine ⟨rfl, ⟨h1, ?_, ?_⟩, rfl, rfl⟩
  · simpa [CdTrackSource.yield_one] using hpos
  · simp only [CdTrackSource.yield_one]
    omega

/-- `SAMPLES_PER_SECTOR` evaluates to 1176. -/
theorem samples_per_sector_eq : SAMPLES_PER_SECTOR = 1176 := rfl

/-- `fill_buffer` called with an exhausted buffer and a non-exhausted
cursor always reports success (both on a good read and on the silence
substitution), keeps the invariant, leaves a non-empty buffer with the
read position at its start, and touches neither counter. -/
theorem fill_buffer_step (d : Disc) (s : CdTrackSource) (hInv : SourceInv s)
    (hbuf : s.buffer.length ≤ s.buffer_pos) (hlt : s.current_lba < s.end_lba) :
    (CdTrackSource.fill_buffer d s).2 = true ∧
    SourceInv (CdTrackSource.fill_buffer d s).1 ∧
    (CdTrackSource.fill_buffer d s).1.buffer_pos
      < (CdTrackSource.fill_buffer d s).1.buffer.length ∧
    (CdTrackSource.fill_buffer d s).1.samples_yielded = s.samples_yielded ∧
    (CdTrackSource.fill_buffer d s).1.total_samples = s.total_samples := by
  obtain ⟨h1, h2, h3⟩ := hInv
  rw [samples_per_sector_eq] at h3
  have hn1 : (1 : Int) ≤ min (s.end_lba - s.current_lba) SECTORS_PER_READ :=
    le_min (by omega) (by norm_num [SECTORS_PER_READ])
  have hn2 : min (s.end_lba - s.current_lba) SECTORS_PER_READ
      ≤ s.end_lba - s.current_lba := min_le_left _ _
  by_cases hro : d.readOk s.current_lba
      (min (s.end_lba - s.current_lba) SECTORS_PER_READ) = true
  · simp [CdTrackSource.fill_buffer, not_le.mpr hlt, hro, SourceInv,
      readSamples_length, samples_per_sector_eq]
    omega
  · simp [CdTrackSource.fill_buffer, not_le.mpr hlt, hro, SourceInv,
      List.length_replicate, samples_per_sector_eq]
    omega

/-- One `next` call on a non-exhausted source: it yields a sample, keeps
the invariant, bumps the yield counter by one, and leaves the total
unchanged. -/
theorem next_step (d : Disc) (s : CdTrackSource) (hInv : SourceInv s)
    (hlt : s.samples_yielded < s.total_samples) :
    (CdTrackSource.next d s).1.isSome = true ∧
    SourceInv (CdTrackSource.next d s).2 ∧
    (CdTrackSource.next d s).2.samples_yielded = s.samples_yielded + 1 ∧
    (CdTrackSource.next d s).2.total_samples = s.total_samples := by
  unfold CdTrackSource.next
  rw [if_neg (not_le.mpr hlt)]
  by_cases hpos : s.buffer_pos ≥ s.buffer.length
  · rw [if_pos hpos]
    have hcur : s.current_lba < s.end_lba := by
      obtain ⟨h1, h2, h3⟩ := hInv
      rw [samples_per_sector_eq] at h3
      omega
    obtain ⟨hf2, hfInv, hfpos, hfy, hft⟩ := fill_buffer_step d s hInv hpos hcur
    rcases hfb : CdTrackSource.fill_buffer d s with ⟨s1, b⟩
    rw [hfb] at hf2 hfInv hfpos hfy hft
    subst hf2
    obtain ⟨hy1, hy2, hy3, hy4⟩ := yield_one_step s1 hfInv hfpos
    exact ⟨hy1, hy2, by rw [hy3, hfy], by rw [hy4, hft]⟩
  · rw [if_neg hpos]
    exact yield_one_step s hInv (by omega)

/-- An exhausted source answers `none` and does not change state. -/
theorem next_done (d : Disc) (s : CdTrackSource)
    (h : s.total_samples ≤ s.samples_yielded) :
    CdTrackSource.next d s = (none, s) := by
  unfold CdTrackSource.next
  rw [if_pos h]

/-- After `k` calls to `next`, the invariant still holds, the total is
unchanged, and exactly `min (initial + k) total` samples have been
yielded. -/
theorem stepN_spec (d : Disc) (s : CdTrackSource) (hInv : SourceInv s) (k : Nat) :
    SourceInv (CdTrackSource.stepN d s k) ∧
    (CdTrackSource.stepN d s k).total_samples = s.total_samples ∧
    (CdTrackSource.stepN d s k).samples_yielded
      = min (s.samples_yielded + k) s.total_samples := by
  induction k with
  | zero =>
    refine ⟨hInv, rfl, ?_⟩
    obtain ⟨-, -, h3⟩ := hInv
    simp only [CdTrackSource.stepN]
    omega
  | succ k ih =>
    obtain ⟨ih1, ih2, ih3⟩ := ih
    simp only [CdTrackSource.stepN]
    by_cases h : (CdTrackSource.stepN d s k).samples_yielded
        < (CdTrackSource.stepN d s k).total_samples
    · obtain ⟨-, hn2, hn3, hn4⟩ := next_step d _ ih1 h
      refine ⟨hn2, by rw [hn4, ih2], ?_⟩
      rw [hn3, ih3]
      rw [ih3, ih2] at h
      omega
    · simp only [next_done d (CdTrackSource.stepN d s k) (by omega)]
      refine ⟨ih1, ih2, ?_⟩
      rw [ih3]
      rw [ih3, ih2] at h
      omega

/-- The `(k+1)`-th `next` call yields a sample exactly when fewer than
`total_samples` calls have been answered so far. -/
theorem outN_isSome_iff (d : Disc) (s : CdTrackSource) (hInv : SourceInv s)
    (k : Nat) :
    (CdTrackSource.outN d s k).isSome = true
      ↔ s.samples_yielded + k < s.total_samples := by
  obtain ⟨h1, h2, h3⟩ := stepN_spec d s hInv k
  constructor
  · intro hs
    by_contra hge
    simp only [CdTrackSource.outN,
      next_done d (CdTrackSource.stepN d s k) (by omega)] at hs
    simp at hs
  · intro hlt2
    have hy : (CdTrackSource.stepN d s k).samples_yielded
        < (CdTrackSource.stepN d s k).total_samples := by
      rw [h2, h3]; omega
    exact (next_step d _ h1 hy).1

/-- Claim C2: for a track with `end_lba ≥ start_lba` spanning
`S = end_lba - start_lba` sectors (an `i32` span, hence below `2^64`), a
fresh `CdTrackSource` answers `some` on exactly the first `S × 1176`
calls to `next` — counting read and silence-substituted spans alike — and
`none` on every later call. -/
theorem cd_track_source_sample_count (d : Disc) (start_lba end_lba : Int)
    (hle : start_lba ≤ end_lba) (hspan : end_lba - start_lba < 2 ^ 64)
    (k : Nat) :
    (CdTrackSource.outN d (CdTrackSource.new start_lba end_lba) k).isSome = true
      ↔ k < (end_lba - start_lba).toNat * 1176 := by
  have hmod : (end_lba - start_lba) % (2 ^ 64 : Int) = end_lba - start_lba :=
    Int.emod_eq_of_lt (by omega) hspan
  have hInv : SourceInv (CdTrackSource.new start_lba end_lba) := by
    refine ⟨hle, Nat.le_refl 0, ?_⟩
    simp only [CdTrackSource.new, hmod, List.length_nil]
    omega
  have htot : (CdTrackSource.new start_lba end_lba).total_samples
      = (end_lba - start_lba).toNat * 1176 := by
    simp only [CdTrackSource.new, hmod, samples_per_sector_eq]
  rw [outN_isSome_iff d _ hInv k, htot]
  show 0 + k < _ ↔ _
  omega

/-- Witness for claim C2: a two-sector track over a disc whose reads all
fail (silence substitution): call 0 yields a sample, call 2352 (= 2 × 1176)
yields none. -/
theorem cd_track_source_sample_count_witness :
    (CdTrackSource.outN scratchedDisc (CdTrackSource.new 0 2) 0).isSome = true ∧
    ¬ (CdTrackSource.outN scratchedDisc (CdTrackSource.new 0 2) 2352).isSome
        = true :=
  ⟨(cd_track_source_sample_count scratchedDisc 0 2 (by decide) (by decide)
      0).mpr (by decide),
   fun h =>
     absurd ((cd_track_source_sample_count scratchedDisc 0 2 (by decide)
       (by decide) 2352).mp h) (by decide)⟩

/-- A disc whose every decoded sample is `i16::MIN`. -/
def minSampleDisc : Disc :=
  { sampleAt := fun _ => -32768, readOk := fun _ _ => true }

set_option maxRecDepth 40000 in
/-- Claim C5 failing input: on a disc whose samples decode to `i16::MIN`
(byte pair `0x00 0x80`), the first emitted sample is
`-32768 / 32767 < -1`, outside the claimed floating-point range
`[-1.0, 1.0]` (the conversion divides by `i16::MAX`, and the code's own
comment asserts the `[-1.0, 1.0]` range). -/
theorem cd_sample_i16_min_below_neg_one :
    (CdTrackSource.next minSampleDisc (CdTrackSource.new 0 1)).1
      = some ((-32768 : Rat) / 32767) ∧
    ((-32768 : Rat) / 32767) < -1 := by
  constructor
  · have h : (CdTrackSource.next minSampleDisc (CdTrackSource.new 0 1)).1
        = some (((-32768 : Int) : Rat) / 32767) := rfl
    rw [h]; norm_num
  · norm_num

/-- Witness for claim C9 with a concrete two-item queue. -/
theorem stop_then_play_runs_empty_session_witness :
    (RodioPlayer.play (RodioPlayer.stop
      { sinkVolume := 1, sinkPaused := false,
        sound_queue := [{ artist := "a", album := "b", title := "t1",
                          path := "p1", cover := "c" },
                        { artist := "a", album := "b", title := "t2",
                          path := "p2", cover := "c" }],
        sound_queue_index := 1, mute_volume := 0 }).1 (fun _ => true)).2.appended
      = 0 :=
  (stop_then_play_runs_empty_session _ (fun _ => true) (by decide)).2.2

/-! ## TOC theorems -/

/-- The `CdTrackInfo` that `read_cd_toc` builds for track number `t`
on a disc with a monotone TOC: the end address is the next track's start
address, or the lead-out for the last track. -/
def toc_track (o : TocOracle) (t : Nat) : CdTrackInfo :=
  let end_lba := if t < o.last_track then o.entryLba (t + 1) else o.leadoutLba
  { number := t
    start_lba := o.entryLba t
    end_lba := end_lba
    durationSecs := ((end_lba - o.entryLba t : Int) : Rat) / 75
    is_audio := ((o.entryAdrCtrl t >>> 4) &&& 0x0F) &&& 0x04 == 0 }

/-- Projection: the start address of a raw entry. -/
theorem mkRawEntry_start (o : TocOracle) (t : Nat) :
    (mkRawEntry o t).start_lba = o.entryLba t := rfl

/-- One-step unfolding of `build_tracks` on a cons cell. -/
theorem build_tracks_cons (L : Int) (e : RawEntry) (rest : List RawEntry) :
    build_tracks L (e :: rest)
      = (if (match rest with | [] => L | e2 :: _ => e2.start_lba)
            - e.start_lba < 0
         then none
         else
           match build_tracks L rest with
           | none => none
           | some ts =>
             some ({ number := e.number, start_lba := e.start_lba,
                     end_lba :=
                       match rest with | [] => L | e2 :: _ => e2.start_lba,
                     durationSecs :=
                       (((match rest with
                          | [] => L
                          | e2 :: _ => e2.start_lba) - e.start_lba : Int) : Rat)
                         / 75,
                     is_audio := e.is_audio } :: ts)) := rfl

/-- Helper: on an entry list for track numbers `t .. last_track` whose
start addresses are monotone and below the lead-out, `build_tracks`
succeeds and produces exactly the `toc_track` records. -/
theorem build_tracks_range (o : TocOracle)
    (hlead : o.entryLba o.last_track ≤ o.leadoutLba) :
    ∀ (m t : Nat), t + m = o.last_track + 1 →
      (∀ u, t ≤ u → u < o.last_track → o.entryLba u ≤ o.entryLba (u + 1)) →
      build_tracks o.leadoutLba ((List.range' t m).map (mkRawEntry o))
        = some ((List.range' t m).map (toc_track o)) := by
  intro m
  induction m with
  | zero => intro t ht hm; rfl
  | succ m ih =>
    intro t ht hm
    cases m with
    | zero =>
      have htl : t = o.last_track := by omega
      rw [List.range'_succ]
      simp only [List.map_cons]
      simp [build_tracks, List.range', mkRawEntry, toc_track, htl,
        not_lt.mpr (le_refl o.last_track), hlead]
    | succ m2 =>
      have h1 : t < o.last_track := by omega
      have ihh := ih (t + 1) (by omega) (fun u hu1 hu2 => hm u (by omega) hu2)
      rw [List.range'_succ (t + 1) m2 1] at ihh
      rw [List.range'_succ t (m2 + 1) 1, List.range'_succ (t + 1) m2 1]
      simp only [List.map_cons] at ihh ⊢
      have hstart : o.entryLba t ≤ o.entryLba (t + 1) := hm t (le_refl t) h1
      rw [build_tracks_cons]
      simp only [mkRawEntry_start]
      rw [if_neg (by omega), ihh]
      simp [toc_track, mkRawEntry, if_pos h1]

/-- Helper: on a monotone disc `read_cd_toc` returns exactly the header
fields and the `toc_track` list. -/
theorem read_cd_toc_eq (o : TocOracle)
    (hfl : o.first_track ≤ o.last_track)
    (hmono : ∀ u, o.first_track ≤ u → u < o.last_track →
      o.entryLba u ≤ o.entryLba (u + 1))
    (hlead : o.entryLba o.last_track ≤ o.leadoutLba) :
    read_cd_toc o
      = some { first_track := o.first_track, last_track := o.last_track,
               tracks := (List.range' o.first_track
                 (o.last_track + 1 - o.first_track)).map (toc_track o) } := by
  unfold read_cd_toc toc_entries
  rw [build_tracks_range o hlead (o.last_track + 1 - o.first_track)
    o.first_track (by omega) hmono]

/-- Helper: the sector counts of the built tracks telescope to
`lead-out − first start`. -/
theorem toc_sum_aux (o : TocOracle) :
    ∀ (m t : Nat), t + m = o.last_track + 1 →
      (((List.range' t m).map (toc_track o)).map CdTrackInfo.sector_count).sum
        = (if m = 0 then 0 else o.leadoutLba - o.entryLba t) := by
  intro m
  induction m with
  | zero => intro t ht; rfl
  | succ m ih =>
    intro t ht
    rw [List.range'_succ]
    simp only [List.map_cons, List.sum_cons]
    cases m with
    | zero =>
      have htl : t = o.last_track := by omega
      simp [CdTrackInfo.sector_count, toc_track, htl, List.range']
    | succ m2 =>
      have h1 : t < o.last_track := by omega
      rw [ih (t + 1) (by omega)]
      simp [CdTrackInfo.sector_count, toc_track, if_pos h1]

/-- Claim C4: on a disc whose TOC header reports first track `f ≤ l` last
track, with monotone start addresses bounded by the lead-out (the layout
of every physical disc), the TOC parse succeeds and yields exactly
`l − f + 1` tracks in track order; track `i` is audio iff its control
nibble has bit `0x4` clear; each track's end sector is the next track's
start sector and the last track's end sector is the lead-out; the sector
counts telescope to `lead_out − first start`; and each duration is
`sector_count / 75` seconds. -/
theorem read_cd_toc_correct (o : TocOracle)
    (hfl : o.first_track ≤ o.last_track)
    (hmono : ∀ u, o.first_track ≤ u → u < o.last_track →
      o.entryLba u ≤ o.entryLba (u + 1))
    (hlead : o.entryLba o.last_track ≤ o.leadoutLba) :
    ∃ info, read_cd_toc o = some info ∧
      info.tracks.length = o.last_track - o.first_track + 1 ∧
      (∀ i (h : i < info.tracks.length),
        (info.tracks.get ⟨i, h⟩).number = o.first_track + i ∧
        (info.tracks.get ⟨i, h⟩).is_audio
          = (((o.entryAdrCtrl (o.first_track + i) >>> 4) &&& 0x0F) &&& 0x04
              == 0) ∧
        (info.tracks.get ⟨i, h⟩).durationSecs
          = (((info.tracks.get ⟨i, h⟩).sector_count : Int) : Rat) / 75) ∧
      (∀ i (h : i + 1 < info.tracks.length),
        (info.tracks.get ⟨i, Nat.lt_of_succ_lt h⟩).end_lba
          = (info.tracks.get ⟨i + 1, h⟩).start_lba) ∧
      (∀ h : info.tracks ≠ [],
        (info.tracks.getLast h).end_lba = o.leadoutLba) ∧
      (info.tracks.map CdTrackInfo.sector_count).sum
        = o.leadoutLba - o.entryLba o.first_track := by
  refine ⟨_, read_cd_toc_eq o hfl hmono hlead, ?_, ?_, ?_, ?_, ?_⟩
  · simp [List.length_range']
    omega
  · intro i h
    simp only [List.length_map, List.length_range'] at h
    have hget : ((List.range' o.first_track
        (o.last_track + 1 - o.first_track)).map (toc_track o)).get
          ⟨i, by simp [List.length_range']; omega⟩
        = toc_track o (o.first_track + i) := by
      simp [List.get_eq_getElem, List.getElem_range'_1]
    rw [hget]
    exact ⟨rfl, rfl, rfl⟩
  · intro i h
    simp only [List.length_map, List.length_range'] at h
    have hget1 : ((List.range' o.first_track
        (o.last_track + 1 - o.first_track)).map (toc_track o)).get
          ⟨i, by simp [List.length_range']; omega⟩
        = toc_track o (o.first_track + i) := by
      simp [List.get_eq_getElem, List.getElem_range'_1]
    have hget2 : ((List.range' o.first_track
        (o.last_track + 1 - o.first_track)).map (toc_track o)).get
          ⟨i + 1, by simp [List.length_range']; omega⟩
        = toc_track o (o.first_track + (i + 1)) := by
      simp [List.get_eq_getElem, List.getElem_range'_1]
    rw [hget1, hget2]
    have hi : o.first_track + i < o.last_track := by omega
    simp [toc_track, if_pos hi]
    rfl
  · intro h
    rw [List.getLast_eq_getElem]
    have hlen : ((List.range' o.first_track
        (o.last_track + 1 - o.first_track)).map (toc_track o)).length
        = o.last_track + 1 - o.first_track := by
      simp [List.length_range']
    have hget : ((List.range' o.first_track
        (o.last_track + 1 - o.first_track)).map (toc_track o)).get
          ⟨o.last_track - o.first_track, by simp [List.length_range']; omega⟩
        = toc_track o (o.first_track + (o.last_track - o.first_track)) := by
      simp [List.get_eq_getElem, List.getElem_range'_1]
    have hback : o.first_track + (o.last_track - o.first_track)
        = o.last_track := by omega
    rw [List.get_eq_getElem] at hget
    simp only [hlen]
    have hidx : o.last_track + 1 - o.first_track - 1
        = o.last_track - o.first_track := by omega
    simp only [hidx]
    rw [hget, hback]
    simp [toc_track]
  · have := toc_sum_aux o (o.last_track + 1 - o.first_track) o.first_track
      (by omega)
    rw [this]
    rw [if_neg (by omega)]

/-- A concrete monotone two-track disc (track 1 audio, track 2 data). -/
def tocExampleA : TocOracle :=
  { first_track := 1, last_track := 2,
    entryLba := fun t => if t = 1 then 0 else 150,
    entryAdrCtrl := fun t => if t = 1 then 0 else 64,
    leadoutLba := 300 }

/-- Witness for claim C4 on the concrete two-track disc. -/
theorem read_cd_toc_correct_witness :
    ∃ info, read_cd_toc tocExampleA = some info ∧ info.tracks.length = 2 := by
  obtain ⟨info, h1, h2, -⟩ :=
    read_cd_toc_correct tocExampleA (by decide)
      (by
        intro u hu1 hu2
        have e1 : tocExampleA.first_track = 1 := rfl
        have e2 : tocExampleA.last_track = 2 := rfl
        rw [e1] at hu1
        rw [e2] at hu2
        have hu : u = 1 := by omega
        subst hu
        decide)
      (by decide)
  exact ⟨info, h1, by simpa using h2⟩

/-- Claim C10: `read_cd_toc` builds each duration through
`Duration::from_secs_f64((end_lba − start_lba) / 75)`, which panics on a
negative span; when every TOC entry's start address is at most the next
entry's start address and at most the lead-out address, every span is
non-negative and `read_cd_toc` returns a value (does not panic). -/
theorem read_cd_toc_no_panic (o : TocOracle)
    (hmono : ∀ u, o.first_track ≤ u → u < o.last_track →
      o.entryLba u ≤ o.entryLba (u + 1))
    (hlead : o.entryLba o.last_track ≤ o.leadoutLba) :
    (read_cd_toc o).isSome = true := by
  by_cases hfl : o.first_track ≤ o.last_track
  · rw [read_cd_toc_eq o hfl hmono hlead]
    rfl
  · have hz : o.last_track + 1 - o.first_track = 0 := by omega
    unfold read_cd_toc toc_entries
    rw [hz]
    rfl

/-- A concrete one-track disc for the C10 witness. -/
def tocExampleB : TocOracle :=
  { first_track := 1, last_track := 1,
    entryLba := fun _ => 0,
    entryAdrCtrl := fun _ => 0,
    leadoutLba := 225 }

/-- Witness for claim C10 on the concrete one-track disc. -/
theorem read_cd_toc_no_panic_witness :
    (read_cd_toc tocExampleB).isSome = true :=
  read_cd_toc_no_panic tocExampleB
    (fun _ h1 h2 => absurd (Nat.lt_of_le_of_lt h1 h2) (by decide))
    (by decide)
